import Mathlib

/-!
Shallow embedding of the core of `gh-notify` (a Go CLI that fetches, filters
and displays GitHub notifications), covering:

* the TTL file cache (`cacheGet` / `cacheSet`),
* the paginated fetch-and-filter loop (`getNotifications`),
* the string helpers used by the presenter (`abbreviate`, substring matching),
* the bubbletea navigation model (`Update`) and the scroll-window computation
  performed by `View`,
* the flag-conflict handling of `main` for `--mark-read`.

Go machine integers are modelled as `Int`; Go slices as `List`; a Go
runtime panic (out-of-range slice index) as `Option.none`.  Go strings are
modelled as Lean `String` where only equality and substring containment
matter (byte-level and character-level containment coincide on valid
UTF-8), and as their UTF-8 byte sequences (`strBytes`) for `abbreviate`,
whose `len(s)` and `s[:max-1]` operate on bytes and may split a multi-byte
character.
The remote API is modelled as the sequence of pages that successive
`getNotifs` calls return; file-system state of the cache as a map from keys
to on-disk entries.
-/

namespace GhNotify

/-- Go `strings.Contains s sub` on character lists: `sub` occurs as a
contiguous substring of `s` (the empty pattern is contained in everything). -/
def goContainsL (sub : List Char) : List Char → Bool
  | [] => sub.isEmpty
  | c :: t => sub.isPrefixOf (c :: t) || goContainsL sub t

/-- Go `strings.Contains` on strings. -/
def goContains (s sub : String) : Bool :=
  goContainsL sub.data s.data

/-- Owner part of the `repository` object of a notification. -/
structure Owner where
  login : String
deriving DecidableEq

/-- Repository part of a notification. -/
structure Repository where
  fullName : String
  owner : Owner
  name : String
deriving DecidableEq

/-- Subject part of a notification. -/
structure Subject where
  type : String
  title : String
  url : String
  latestCommentURL : String
deriving DecidableEq

/-- One notification record of the feed (Go struct `Notification`). -/
structure Notification where
  id : String
  unread : Bool
  updatedAt : String
  lastReadAt : String
  repository : Repository
  reason : String
  subject : Subject
deriving DecidableEq

/-- The fixed page size `ghNotifyPerPageLimit = 50`. -/
def ghNotifyPerPageLimit : Int := 50

/-- The fixed "nothing to show" message. -/
def finalMsg : String := "All caught up!"

/-- The UTF-8 encoding of one character, as a list of byte values. -/
def utf8CharBytes (c : Char) : List Nat :=
  let n := c.toNat
  if n < 128 then [n]
  else if n < 2048 then [192 + n / 64, 128 + n % 64]
  else if n < 65536 then [224 + n / 4096, 128 + (n / 64) % 64, 128 + n % 64]
  else [240 + n / 262144, 128 + (n / 4096) % 64, 128 + (n / 64) % 64,
    128 + n % 64]

/-- The UTF-8 bytes of a string: what a Go string literal holds, and what
Go's `len` and slicing operate on. -/
def strBytes (s : String) : List Nat :=
  s.data.foldr (fun c acc => utf8CharBytes c ++ acc) []

/-- Go `abbreviate`, on the bytes of the Go string: when `max > 1` and the
byte length of `s` exceeds `max`, return the first `max - 1` bytes of `s`
(`s[:max-1]`, which may split a multi-byte character) followed by the three
UTF-8 bytes of the ellipsis character; otherwise return `s` unchanged. -/
def abbreviate (s : List Nat) (max : Int) : List Nat :=
  if max ≤ 1 ∨ (s.length : Int) ≤ max then s
  else s.take (max - 1).toNat ++ strBytes "…"

/-- The per-record filter applied inside the fetch loop of
`getNotifications`: drop when the exclusion pattern is non-empty and the
subject title contains it, else drop when the filter pattern is non-empty
and the subject title does not contain it, else keep. -/
def keepNotif (exclusion filter : String) (n : Notification) : Bool :=
  if (exclusion != "") && goContains n.subject.title exclusion then false
  else if (filter != "") && !goContains n.subject.title filter then false
  else true

/-- The loop of `getNotifications`: walk the successive pages returned by
`getNotifs`, truncate with `pageSize = min (numNotifications - fetchedCount)
50`, filter each record, and stop on an empty page, on reaching
`numNotifications`, or on a short page.  Returns the accumulated records and
the number of page requests issued; `none` models the Go runtime panic of
`notifs[:pageSize]` when `pageSize` is negative. -/
def getNotificationsLoop (exclusion filter : String) (numNotifications : Int) :
    Int → List Notification → List (List Notification) →
    Option (List Notification × Nat)
  | _, allNotifs, [] => some (allNotifs, 1)
  | fetchedCount, allNotifs, page :: rest =>
    if page.length = 0 then some (allNotifs, 1)
    else
      let pageSize : Int := min (numNotifications - fetchedCount) ghNotifyPerPageLimit
      match (if pageSize < (page.length : Int) then
               (if pageSize < 0 then none else some (page.take pageSize.toNat))
             else some page) with
      | none => none
      | some notifs =>
        let allNotifs2 := allNotifs ++ notifs.filter (keepNotif exclusion filter)
        let fetchedCount2 := fetchedCount + (notifs.length : Int)
        if fetchedCount2 = numNotifications ∨ (notifs.length : Int) < ghNotifyPerPageLimit then
          some (allNotifs2, 1)
        else
          match getNotificationsLoop exclusion filter numNotifications fetchedCount2 allNotifs2 rest with
          | none => none
          | some (r, c) => some (r, c + 1)

/-- `getNotifications`, fed with the pages the remote source serves. -/
def getNotifications (exclusion filter : String) (numNotifications : Int)
    (pages : List (List Notification)) : Option (List Notification × Nat) :=
  getNotificationsLoop exclusion filter numNotifications 0 [] pages

/-- A feed of `totalAvailable` records served in successive pages of (at
most) 50 records, the way the remote paged API serves a flat feed. -/
def pagesOf {α : Type} (feed : List α) : List (List α) :=
  if h : feed.isEmpty then []
  else feed.take 50 :: pagesOf (feed.drop 50)
termination_by feed.length
decreasing_by
  rw [List.length_drop]
  have : feed ≠ [] := by
    intro hnil
    rw [hnil] at h
    exact h rfl
  have := List.length_pos.mpr this
  omega

/-! ### The TTL file cache -/

/-- One on-disk cache file for a payload type `α`, as `cacheGet` sees it:
either the outer JSON object fails to decode (`malformed`), or it decodes to
a `timestamp`/`data` pair whose inner `data` does not unmarshal into the
requested type (`stale`), or it is fully well-formed. -/
inductive DiskEntry (α : Type) where
  | malformed : DiskEntry α
  | stale : Int → DiskEntry α
  | wellFormed : Int → α → DiskEntry α
deriving DecidableEq

/-- The cache directory: one optional on-disk entry per key. -/
def CacheStore (α : Type) := String → Option (DiskEntry α)

/-- Replace (or delete, with `none`) the on-disk entry of one key. -/
def storeWrite {α : Type} (store : CacheStore α) (key : String)
    (e : Option (DiskEntry α)) : CacheStore α :=
  fun k => if k = key then e else store k

/-- Go `cacheGet`: miss when the cache is disabled, the file is missing, or
the entry is malformed; delete the file and miss when the entry is older
than `cacheDuration`; otherwise return the unmarshalled payload (miss when
the inner unmarshal fails).  Returns the payload (or `none` for a miss)
together with the cache directory after the call. -/
def cacheGet {α : Type} (cacheEnabled : Bool) (cacheDuration now : Int)
    (store : CacheStore α) (key : String) : Option α × CacheStore α :=
  if !cacheEnabled then (none, store)
  else
    match store key with
    | none => (none, store)
    | some .malformed => (none, store)
    | some (.stale ts) =>
      if cacheDuration < now - ts then (none, storeWrite store key none)
      else (none, store)
    | some (.wellFormed ts d) =>
      if cacheDuration < now - ts then (none, storeWrite store key none)
      else (some d, store)

/-- Go `cacheSet`: no-op when the cache is disabled; otherwise marshal the
payload with the current timestamp and atomically replace the key's entry
(the temp-file-and-rename of the source is a single atomic replacement;
marshalling a serializable payload succeeds). -/
def cacheSet {α : Type} (cacheEnabled : Bool) (now : Int)
    (store : CacheStore α) (key : String) (v : α) : CacheStore α :=
  if !cacheEnabled then store
  else storeWrite store key (some (.wellFormed now v))

/-! ### The bubbletea navigation model -/

/-- The bubbletea `Model`. -/
structure Model where
  notifications : List Notification
  cursor : Int
  width : Int
  height : Int
  showPreview : Bool
  showHelp : Bool
deriving DecidableEq

/-- Go `NewModel`. -/
def NewModel (notifs : List Notification) : Model :=
  { notifications := notifs
    cursor := 0
    width := 0
    height := 0
    showPreview := false
    showHelp := false }

/-- The bubbletea messages `Update` inspects: window resizes and key
presses (`msg.String()` of a `tea.KeyMsg`). -/
inductive TeaMsg where
  | windowSize : Int → Int → TeaMsg
  | key : String → TeaMsg
deriving DecidableEq

/-- Go `Update`: the second component is `true` exactly when the returned
command is `tea.Quit`. -/
def Update (m : Model) (msg : TeaMsg) : Model × Bool :=
  match msg with
  | .windowSize w h => ({ m with width := w, height := h }, false)
  | .key s =>
    if s == "ctrl+c" || s == "esc" || s == "q" then (m, true)
    else if s == "up" || s == "k" then
      (if m.cursor > 0 then { m with cursor := m.cursor - 1 } else m, false)
    else if s == "down" || s == "j" then
      (if m.cursor < (m.notifications.length : Int) - 1 then
        { m with cursor := m.cursor + 1 } else m, false)
    else if s == "tab" then ({ m with showPreview := !m.showPreview }, false)
    else if s == "?" then ({ m with showHelp := !m.showHelp }, false)
    else if s == "enter" then ({ m with showPreview := true }, false)
    else (m, false)

/-- The scroll-window computation of `View` (start/end of the visible row
range), as a function of `entriesHeight`, the cursor, and the number of
notifications.  In `View`, `entriesHeight = m.height - len(headerLines) - 1`
with two header lines. -/
def scrollWindow (entriesHeight cursor : Int) (numNotifs : Nat) : Int × Int :=
  if entriesHeight > 0 ∧ (numNotifs : Int) > entriesHeight then
    if cursor < entriesHeight / 2 then
      (0, entriesHeight)
    else if cursor > (numNotifs : Int) - entriesHeight / 2 then
      ((numNotifs : Int) - entriesHeight, (numNotifs : Int))
    else
      (cursor - entriesHeight / 2, cursor - entriesHeight / 2 + entriesHeight)
  else (0, (numNotifs : Int))

/-- The visible row range `View` renders for a model (two header lines). -/
def viewWindow (m : Model) : Int × Int :=
  scrollWindow (m.height - 2 - 1) m.cursor m.notifications.length

/-- The list indices `i` at which `View`'s row loop reads
`m.notifications[i]` (the loop `for i := start; i < end; i++`). -/
def viewRowIndices (m : Model) : List Int :=
  (List.range ((viewWindow m).2 - (viewWindow m).1).toNat).map
    (fun j => (viewWindow m).1 + (j : Int))

/-! ### The `main` command body -/

/-- The abstract environment `main`'s `Run` closure interacts with: whether
`gh` is on the PATH, whether the mark-all-read PUT succeeds, and the pages
the remote source serves. -/
structure Env where
  ghInstalled : Bool
  putOk : Bool
  pages : List (List Notification)

/-- One network call issued while running the command. -/
inductive NetCall where
  | putNotifications : NetCall
  | getPage : Nat → NetCall
deriving DecidableEq

/-- Observable outcome of one run of the command body: standard error
lines, standard output lines (presentation of the fetched records is
abstracted away), the exit code, and the network calls issued in order. -/
structure RunResult where
  stderrLines : List String
  stdoutLines : List String
  exitCode : Int
  netCalls : List NetCall
deriving DecidableEq

/-- The documented conflict message of `main` for `--mark-read` together
with `--exclude` or `--filter`. -/
def conflictMsg : String :=
  "Can\x27t mark all notifications as read when either the \x27--exclude\x27 or \x27--filter\x27 flag was used, as it would also mark notifications as read that are filtered out."

/-- `die(msg)` prints `ERROR: msg` to standard error and exits 1. -/
def dieResult (msg : String) : RunResult :=
  { stderrLines := ["ERROR: " ++ msg]
    stdoutLines := []
    exitCode := 1
    netCalls := [] }

/-- The `Run` closure of `main`'s root command: check `gh`, handle the
`--mark-read` branch (flag-conflict check, then the PUT), else fetch and
present.  `none` models a Go runtime panic inside `getNotifications`. -/
def runMain (env : Env) (exclusion filter : String) (numNotifications : Int)
    (markRead : Bool) : Option RunResult :=
  if !env.ghInstalled then some (dieResult "install \x27gh\x27")
  else if markRead then
    if exclusion != "" || filter != "" then
      some (dieResult conflictMsg)
    else if env.putOk then
      some { stderrLines := []
             stdoutLines := ["All notifications have been marked as read."]
             exitCode := 0
             netCalls := [.putNotifications] }
    else
      some { stderrLines := ["ERROR: Failed to mark notifications as read."]
             stdoutLines := []
             exitCode := 1
             netCalls := [.putNotifications] }
  else
    match getNotifications exclusion filter numNotifications env.pages with
    | none => none
    | some (notifs, reqCount) =>
      let calls := (List.range reqCount).map (fun i => NetCall.getPage (i + 1))
      if notifs.length = 0 then
        some { stderrLines := []
               stdoutLines := [finalMsg]
               exitCode := 0
               netCalls := calls }
      else
        some { stderrLines := []
               stdoutLines := []
               exitCode := 0
               netCalls := calls }

/-! ### Example data used by concrete witnesses -/

/-- A concrete notification record. -/
def exampleNotif : Notification :=
  { id := "123"
    unread := true
    updatedAt := "2025-07-01T00:00:00Z"
    lastReadAt := ""
    repository :=
      { fullName := "octo/repo", owner := { login := "octo" }, name := "repo" }
    reason := "mention"
    subject :=
      { type := "Issue", title := "Example", url := "", latestCommentURL := "" } }

/-- `exampleNotif` with a given subject title. -/
def notifTitled (t : String) : Notification :=
  { exampleNotif with subject := { exampleNotif.subject with title := t } }

/-- A concrete cache directory holding one well-formed entry stored at
time 100 under one key. -/
def exampleStore : CacheStore Int :=
  fun k => if k = "notifs_1_false_false" then some (.wellFormed 100 7) else none

/-! ### C1: cache read with TTL -/

/-- C1: for a key holding a well-formed on-disk entry stored at `ts`, an
enabled cache's `cacheGet` returns the stored payload iff
`now - ts ≤ cacheDuration`; when `now - ts > cacheDuration` it misses and
deletes that key's on-disk entry. -/
theorem cacheGet_ttl {α : Type} (cacheDuration now ts : Int) (d : α)
    (store : CacheStore α) (key : String)
    (hw : store key = some (DiskEntry.wellFormed ts d)) :
    ((cacheGet true cacheDuration now store key).1 = some d ↔
      now - ts ≤ cacheDuration)
    ∧ (cacheDuration < now - ts →
        (cacheGet true cacheDuration now store key).1 = none
        ∧ (cacheGet true cacheDuration now store key).2 key = none) := by
  rw [cacheGet]
  simp only [Bool.not_true, Bool.false_eq_true, if_false, hw]
  split_ifs with h
  · refine ⟨by simp; omega, fun _ => ⟨rfl, ?_⟩⟩
    simp [storeWrite]
  · exact ⟨by simp; omega, fun hh => absurd hh h⟩

/-- Witness for C1 at a concrete store, key and times. -/
theorem cacheGet_ttl_witness :
    (((cacheGet true 300 350 exampleStore "notifs_1_false_false").1 = some 7 ↔
        (350 : Int) - 100 ≤ 300)
      ∧ ((300 : Int) < 350 - 100 →
          (cacheGet true 300 350 exampleStore "notifs_1_false_false").1 = none
          ∧ (cacheGet true 300 350 exampleStore "notifs_1_false_false").2
              "notifs_1_false_false" = none)) :=
  cacheGet_ttl 300 350 100 7 exampleStore "notifs_1_false_false" rfl

/-! ### C4: cache set/get round-trip -/

/-- C4: `cacheSet` followed by `cacheGet` for the same key, with the cache
enabled and the elapsed time within the TTL, returns exactly the payload
that was written. -/
theorem cacheSet_get_roundtrip {α : Type} (cacheDuration now now2 : Int)
    (store : CacheStore α) (key : String) (v : α)
    (h : now2 - now ≤ cacheDuration) :
    (cacheGet true cacheDuration now2 (cacheSet true now store key v) key).1 =
      some v := by
  have hk : (cacheSet true now store key v) key =
      some (DiskEntry.wellFormed now v) := by
    simp [cacheSet, storeWrite]
  rw [cacheGet]
  simp only [Bool.not_true, Bool.false_eq_true, if_false, hk]
  rw [if_neg (by omega)]

/-- Witness for C4 at a concrete store, key, payload and times. -/
theorem cacheSet_get_roundtrip_witness :
    (cacheGet true 300 350 (cacheSet true 100 exampleStore "k" 42) "k").1 =
      some 42 :=
  cacheSet_get_roundtrip 300 100 350 exampleStore "k" 42 (by decide)

/-! ### C6: cursor clamping in `Update` -/

/-- C6: for every model whose cursor is a valid index, the move-up key sets
the cursor to `max (cursor - 1) 0` and the move-down key sets it to
`min (cursor + 1) (length - 1)` (clamped at both ends). -/
theorem update_clamps_cursor (m : Model) (h0 : 0 ≤ m.cursor)
    (h1 : m.cursor < (m.notifications.length : Int)) :
    (Update m (.key "up")).1.cursor = max (m.cursor - 1) 0
    ∧ (Update m (.key "down")).1.cursor =
        min (m.cursor + 1) ((m.notifications.length : Int) - 1) := by
  constructor
  · rw [show Update m (.key "up") =
      (if m.cursor > 0 then { m with cursor := m.cursor - 1 } else m, false)
      from rfl]
    split_ifs with h <;> simp <;> omega
  · rw [show Update m (.key "down") =
      (if m.cursor < (m.notifications.length : Int) - 1 then
        { m with cursor := m.cursor + 1 } else m, false) from rfl]
    split_ifs with h <;> simp <;> omega

/-- Witness for C6: with 5 notifications, move-up from cursor 0 stays at 0
and move-down from cursor 4 stays at 4. -/
theorem update_clamps_cursor_witness :
    (Update (NewModel (List.replicate 5 exampleNotif)) (.key "up")).1.cursor =
        max ((NewModel (List.replicate 5 exampleNotif)).cursor - 1) 0
    ∧ (Update { NewModel (List.replicate 5 exampleNotif) with cursor := 4 }
          (.key "down")).1.cursor =
        min ((4 : Int) + 1) ((((NewModel (List.replicate 5 exampleNotif)).notifications.length : Int)) - 1) :=
  ⟨(update_clamps_cursor (NewModel (List.replicate 5 exampleNotif))
      (by decide) (by decide)).1,
   (update_clamps_cursor { NewModel (List.replicate 5 exampleNotif) with cursor := 4 }
      (by decide) (by decide)).2⟩

/-! ### C7: abbreviation -/

/-- C7 as stated is false at two explicit inputs.  At `s = "ab"`,
`max = 1`: the string is longer than `max`, yet `abbreviate` returns it
unchanged instead of the first `max - 1` characters followed by an
ellipsis.  At `s = "éé"`, `max = 3`: the string is 2 characters but 4
bytes, and the code returns `"é…"` — neither `s` unchanged (as the claim's
character reading of "not longer than max" requires) nor the first
`max - 1 = 2` characters followed by an ellipsis (`"éé…"`): the truncation
is byte-based. -/
theorem abbreviate_claim_counterexample :
    (strBytes "ab").length > 1
    ∧ abbreviate (strBytes "ab") 1 = strBytes "ab"
    ∧ strBytes "ab" ≠ strBytes "…"
    ∧ ("éé" : String).length ≤ 3
    ∧ abbreviate (strBytes "éé") 3 = strBytes "é…"
    ∧ strBytes "é…" ≠ strBytes "éé"
    ∧ strBytes "é…" ≠ strBytes "éé…" := by
  refine ⟨by decide, by decide, by decide, by decide, by decide, by decide,
    by decide⟩

/-- C7 amended: `abbreviate` operates on the bytes of the string — it
returns `s` unchanged when the byte length of `s` is at most `max` or when
`max ≤ 1`; otherwise (when `max > 1` and the byte length of `s` exceeds
`max`) it returns the first `max - 1` bytes of `s` (which may split a
multi-byte character) followed by the three UTF-8 bytes of the ellipsis
character; in particular `abbreviate "hello world" 5 = "hell…"`,
`abbreviate "hi" 5 = "hi"`, and `abbreviate "éé" 3 = "é…"`. -/
theorem abbreviate_spec (s : List Nat) (max : Int) :
    ((s.length : Int) ≤ max ∨ max ≤ 1 → abbreviate s max = s)
    ∧ (1 < max → max < (s.length : Int) →
        abbreviate s max = s.take (max - 1).toNat ++ strBytes "…")
    ∧ abbreviate (strBytes "hello world") 5 = strBytes "hell…"
    ∧ abbreviate (strBytes "hi") 5 = strBytes "hi"
    ∧ abbreviate (strBytes "éé") 3 = strBytes "é…" := by
  refine ⟨fun h => ?_, fun h1 h2 => ?_, by decide, by decide, by decide⟩
  · rw [abbreviate, if_pos (by tauto)]
  · rw [abbreviate, if_neg (by omega)]

/-- Witness for C7's amended claim at concrete strings and limits. -/
theorem abbreviate_spec_witness :
    abbreviate (strBytes "hello world") 5 =
      (strBytes "hello world").take ((5 : Int) - 1).toNat ++ strBytes "…"
    ∧ abbreviate (strBytes "hi") 5 = strBytes "hi" :=
  ⟨(abbreviate_spec (strBytes "hello world") 5).2.1 (by decide) (by decide),
   (abbreviate_spec (strBytes "hi") 5).1 (Or.inl (by decide))⟩

/-! ### C3: filtering -/

/-- Modelled on the claim's wording: a record is dropped iff the exclude
pattern is non-empty and the subject title contains it; among the
remainder, a record is kept iff the include pattern is empty or the title
contains it (substring containment). -/
def specKeep (exclusion filter : String) (n : Notification) : Bool :=
  if (exclusion != "") && goContains n.subject.title exclusion then false
  else (filter == "") || goContains n.subject.title filter

/-- Every record in the output of the fetch loop passed the per-record
filter (accumulator members are assumed filtered). -/
theorem loop_mem_keep (exclusion filter : String) (N : Int) :
    ∀ (pages : List (List Notification)) (fetched : Int)
      (acc out : List Notification) (R : Nat),
      (∀ x ∈ acc, keepNotif exclusion filter x = true) →
      getNotificationsLoop exclusion filter N fetched acc pages = some (out, R) →
      ∀ x ∈ out, keepNotif exclusion filter x = true := by
  intro pages
  induction pages with
  | nil =>
    intro fetched acc out R hacc h
    simp only [getNotificationsLoop, Option.some.injEq, Prod.mk.injEq] at h
    rw [← h.1]
    exact hacc
  | cons page rest ih =>
    intro fetched acc out R hacc h
    rw [getNotificationsLoop] at h
    split_ifs at h with hp
    · simp only [Option.some.injEq, Prod.mk.injEq] at h
      rw [← h.1]; exact hacc
    · dsimp only at h
      split at h
      · exact absurd h (by simp)
      · rename_i notifs hnotifs
        have hacc2 : ∀ x ∈ acc ++ notifs.filter (keepNotif exclusion filter),
            keepNotif exclusion filter x = true := by
          intro x hx
          rcases List.mem_append.mp hx with hxa | hxf
          · exact hacc x hxa
          · exact (List.mem_filter.mp hxf).2
        split_ifs at h with hstop
        · simp only [Option.some.injEq, Prod.mk.injEq] at h
          rw [← h.1]; exact hacc2
        · split at h
          · exact absurd h (by simp)
          · rename_i r c hrec
            simp only [Option.some.injEq, Prod.mk.injEq] at h
            rw [← h.1]
            exact ih _ _ r c hacc2 hrec

/-- C3 as stated is false on the code: with titles
`["Fix bug", "Add feature", "Bugfix release"]` and exclude pattern `"Bug"`,
the fetch keeps `"Fix bug"` as well as `"Add feature"` (containment is
case-sensitive), not only `"Add feature"`. -/
theorem filter_example_counterexample :
    getNotifications "Bug" "" 50
        [[notifTitled "Fix bug", notifTitled "Add feature",
          notifTitled "Bugfix release"]] =
      some ([notifTitled "Fix bug", notifTitled "Add feature"], 1)
    ∧ [notifTitled "Fix bug", notifTitled "Add feature"] ≠
        [notifTitled "Add feature"] := by
  decide

/-- C3 amended: per record, in this order, a record is dropped iff the
exclude pattern is non-empty and the subject title contains it; among the
remainder, a record is kept iff the include pattern is empty or the title
contains it (case-sensitive substring containment) — every record the
fetch returns passed this filter — and for titles
`["Fix bug", "Add feature", "Bugfix release"]` with exclude `"Bug"` the
kept records are `"Fix bug"` and `"Add feature"`. -/
theorem filter_rule (exclusion filter : String) (n : Notification)
    (N : Int) (pages : List (List Notification)) (out : List Notification)
    (R : Nat) (h : getNotifications exclusion filter N pages = some (out, R)) :
    keepNotif exclusion filter n = specKeep exclusion filter n
    ∧ (∀ x ∈ out, keepNotif exclusion filter x = true)
    ∧ getNotifications "Bug" "" 50
        [[notifTitled "Fix bug", notifTitled "Add feature",
          notifTitled "Bugfix release"]] =
      some ([notifTitled "Fix bug", notifTitled "Add feature"], 1) := by
  refine ⟨?_, loop_mem_keep exclusion filter N pages 0 [] out R (by simp) h,
    by decide⟩
  unfold keepNotif specKeep
  cases he : ((exclusion != "") && goContains n.subject.title exclusion)
  · simp only [Bool.false_eq_true, if_false]
    cases hq : (filter != "") <;> cases hc : goContains n.subject.title filter <;>
      simp_all [bne]
  · simp

/-- Witness for C3's amended claim at a concrete single-page fetch. -/
theorem filter_rule_witness :
    keepNotif "Bug" "" (notifTitled "Fix bug") =
      specKeep "Bug" "" (notifTitled "Fix bug")
    ∧ (∀ x ∈ [notifTitled "Fix bug", notifTitled "Add feature"],
        keepNotif "Bug" "" x = true)
    ∧ getNotifications "Bug" "" 50
        [[notifTitled "Fix bug", notifTitled "Add feature",
          notifTitled "Bugfix release"]] =
      some ([notifTitled "Fix bug", notifTitled "Add feature"], 1) :=
  filter_rule "Bug" "" (notifTitled "Fix bug") 50
    [[notifTitled "Fix bug", notifTitled "Add feature",
      notifTitled "Bugfix release"]]
    [notifTitled "Fix bug", notifTitled "Add feature"] 1 (by decide)

/-! ### C5: viewport scroll policy -/

/-- Modelled on the claim's wording: show from index 0 when the cursor is
in the first half-window from the top; show the last window of `h` rows
when the cursor is within half a window of the end; otherwise the window of
height `h` centred on the cursor. -/
def specWindow (h cursor : Int) (L : Nat) : Int × Int :=
  if cursor < h / 2 then (0, h)
  else if cursor > (L : Int) - h / 2 then ((L : Int) - h, (L : Int))
  else (cursor - h / 2, cursor - h / 2 + h)

/-- C5: when the list is longer than the (positive) viewport, the visible
window `View` renders is exactly the spec's three-case function of
`(cursor, length, entriesHeight)`, and the cursor lies inside it. -/
theorem scrollWindow_spec (entriesHeight cursor : Int) (L : Nat)
    (hh : 1 ≤ entriesHeight) (hL : entriesHeight < (L : Int))
    (hc0 : 0 ≤ cursor) (hcL : cursor < (L : Int)) :
    scrollWindow entriesHeight cursor L = specWindow entriesHeight cursor L
    ∧ (scrollWindow entriesHeight cursor L).1 ≤ cursor
    ∧ cursor < (scrollWindow entriesHeight cursor L).2 := by
  rw [scrollWindow, if_pos ⟨by omega, hL⟩]
  refine ⟨rfl, ?_⟩
  split_ifs with h1 h2 <;> refine ⟨?_, ?_⟩ <;> dsimp only <;> omega

/-- Witness for C5 at a concrete cursor, length and viewport. -/
theorem scrollWindow_spec_witness :
    scrollWindow 4 5 10 = specWindow 4 5 10
    ∧ (scrollWindow 4 5 10).1 ≤ 5 ∧ (5 : Int) < (scrollWindow 4 5 10).2 :=
  scrollWindow_spec 4 5 10 (by decide) (by decide) (by decide) (by decide)

/-! ### C9: `View` row range can leave the list's bounds -/

/-- A reachable interactive state: 10 notifications, cursor moved to
index 8, terminal height 8 (so `entriesHeight = 5`). -/
def bugModel : Model :=
  { notifications := List.replicate 10 exampleNotif
    cursor := 8
    width := 80
    height := 8
    showPreview := false
    showHelp := false }

/-- C9 fails on the code: with 10 notifications, cursor 8 (a valid index)
and terminal height 8, `View` computes the row range `[6, 11)` and its row
loop reads `m.notifications[10]`, one past the end of the list — an
out-of-range index. -/
theorem view_reads_out_of_bounds :
    0 ≤ bugModel.cursor
    ∧ bugModel.cursor < (bugModel.notifications.length : Int)
    ∧ viewWindow bugModel = (6, 11)
    ∧ (10 : Int) ∈ viewRowIndices bugModel
    ∧ ¬((10 : Int) < (bugModel.notifications.length : Int)) := by
  decide

/-! ### C8: mark-all-read flag conflict -/

/-- C8: with `gh` installed, running with the mark-all-read flag together
with a non-empty exclude or include pattern writes the documented conflict
message to standard error, exits non-zero, and issues no network call. -/
theorem markRead_conflict (env : Env) (exclusion filter : String) (N : Int)
    (hg : env.ghInstalled = true) (hc : exclusion ≠ "" ∨ filter ≠ "") :
    runMain env exclusion filter N true = some (dieResult conflictMsg)
    ∧ (dieResult conflictMsg).stderrLines = ["ERROR: " ++ conflictMsg]
    ∧ (dieResult conflictMsg).exitCode ≠ 0
    ∧ (dieResult conflictMsg).netCalls = [] := by
  refine ⟨?_, rfl, by decide, rfl⟩
  rw [runMain]
  have : (exclusion != "" || filter != "") = true := by
    rcases hc with hc | hc <;> simp [hc]
  simp [hg, this]

/-- Witness for C8 at a concrete environment and flag set. -/
theorem markRead_conflict_witness :
    runMain ⟨true, true, []⟩ "Bug" "" 50 true = some (dieResult conflictMsg)
    ∧ (dieResult conflictMsg).stderrLines = ["ERROR: " ++ conflictMsg]
    ∧ (dieResult conflictMsg).exitCode ≠ 0
    ∧ (dieResult conflictMsg).netCalls = [] :=
  markRead_conflict ⟨true, true, []⟩ "Bug" "" 50 rfl (Or.inl (by decide))

/-! ### C2 and C10: the pagination loop -/

/-- `pagesOf` on the empty feed. -/
theorem pagesOf_nil {α : Type} : pagesOf ([] : List α) = [] := by
  rw [pagesOf]; rfl

/-- `pagesOf` on a non-empty feed: the first page of (up to) 50 records,
then the pages of the rest. -/
theorem pagesOf_cons {α : Type} (feed : List α) (h : feed ≠ []) :
    pagesOf feed = feed.take 50 :: pagesOf (feed.drop 50) := by
  rw [pagesOf, dif_neg]
  simpa using h

/-- With both patterns empty, every record passes the filter. -/
theorem keepNotif_empty (n : Notification) : keepNotif "" "" n = true := rfl

/-- With both patterns empty, the per-page filter is the identity. -/
theorem filter_keep_empty (l : List Notification) :
    l.filter (keepNotif "" "") = l :=
  List.filter_eq_self.mpr (fun x _ => keepNotif_empty x)

/-- Invariant of the fetch loop over a feed served by `pagesOf`, with empty
patterns: starting below the requested count, the loop returns the next
`min (N - fetched) (remaining feed)` records appended to the accumulator,
in feed order, using `⌈M / 50⌉` page requests, possibly plus one final
empty-page probe. -/
theorem loop_pagesOf_feed (N : Int) :
    ∀ (n : Nat) (feed : List Notification), feed.length = n →
      ∀ (fetched : Int) (acc : List Notification),
        0 ≤ fetched → fetched < N →
        ∃ R, getNotificationsLoop "" "" N fetched acc (pagesOf feed) =
            some (acc ++ feed.take (min (N - fetched).toNat feed.length), R)
          ∧ (R = (min (N - fetched).toNat feed.length + 49) / 50
             ∨ R = (min (N - fetched).toNat feed.length + 49) / 50 + 1) := by
  intro n
  induction n using Nat.strong_induction_on with
  | _ n ih =>
    intro feed hfeed fetched acc h0 h1
    by_cases hnil : feed = []
    · subst hnil
      rw [pagesOf_nil]
      exact ⟨1, by simp [getNotificationsLoop], by right; simp⟩
    · have hflen : 0 < feed.length := List.length_pos.mpr hnil
      have hplen : (feed.take 50).length = min 50 feed.length :=
        List.length_take 50 feed
      rw [pagesOf_cons feed hnil, getNotificationsLoop,
        if_neg (by rw [hplen]; omega : ¬(feed.take 50).length = 0)]
      dsimp only
      rw [ghNotifyPerPageLimit]
      by_cases hA : (N - fetched) ⊓ 50 < ((feed.take 50).length : Int)
      -- Branch A: the page is truncated, which forces pageSize = N - fetched
      -- and the loop to stop with fetchedCount = N.
      · rw [hplen] at hA
        have hmin : (N - fetched) ⊓ 50 = N - fetched := by omega
        rw [if_pos (by rw [hplen]; omega), if_neg (by omega : ¬(N - fetched) ⊓ 50 < 0)]
        dsimp only
        rw [filter_keep_empty]
        have hnotifs : (feed.take 50).take ((N - fetched) ⊓ 50).toNat
            = feed.take (N - fetched).toNat := by
          rw [List.take_take]
          exact List.take_eq_take.mpr (by omega)
        rw [hnotifs]
        have hlen2 : (feed.take (N - fetched).toNat).length = (N - fetched).toNat := by
          rw [List.length_take]; omega
        rw [hlen2]
        rw [if_pos (Or.inl (by omega : fetched + (((N - fetched).toNat : Nat) : Int) = N))]
        have hM : min (N - fetched).toNat feed.length = (N - fetched).toNat := by omega
        exact ⟨1, by rw [hM], Or.inl (by omega)⟩
      -- Branch B: the whole page is consumed.
      · rw [if_neg hA]
        dsimp only
        rw [filter_keep_empty]
        rw [hplen] at hA
        by_cases hstop : fetched + (((feed.take 50)).length : Int) = N
            ∨ (((feed.take 50)).length : Int) < 50
        -- B1: the loop stops after this page.
        · rw [if_pos hstop]
          rw [hplen] at hstop
          have hM50 : min 50 feed.length = min (N - fetched).toNat feed.length := by
            rcases hstop with hs | hs <;> omega
          have htake : feed.take 50 = feed.take (min (N - fetched).toNat feed.length) :=
            List.take_eq_take.mpr (by omega)
          refine ⟨1, by rw [htake], Or.inl (by omega)⟩
        -- B2: a full page of 50 was consumed and the loop recurses.
        · rw [if_neg hstop]
          rw [hplen] at hstop
          push_neg at hstop
          have hpl50 : min 50 feed.length = 50 := by omega
          have hdlen : (feed.drop 50).length = feed.length - 50 :=
            List.length_drop 50 feed
          have hlt : (feed.drop 50).length < n := by
            rw [hdlen, ← hfeed]; omega
          obtain ⟨R', hR', hd⟩ := ih (feed.drop 50).length hlt (feed.drop 50) rfl
            (fetched + ((feed.take 50).length : Int)) (acc ++ feed.take 50)
            (by rw [hplen]; omega) (by rw [hplen]; omega)
          rw [hR']
          have hM : min (N - fetched).toNat feed.length
              = 50 + min (N - (fetched + ((feed.take 50).length : Int))).toNat
                  (feed.drop 50).length := by
            rw [hplen, hdlen, hpl50]
            omega
          have hceil : (min (N - fetched).toNat feed.length + 49) / 50
              = (min (N - (fetched + ((feed.take 50).length : Int))).toNat
                  (feed.drop 50).length + 49) / 50 + 1 := by
            rw [hM]; omega
          refine ⟨R' + 1, ?_, ?_⟩
          · rw [hM, List.take_add, ← List.append_assoc]
          · rcases hd with hd | hd
            · left; rw [hceil, hd]
            · right; rw [hceil, hd]

/-- C2: for `maxCount ≥ 1` and a feed served in pages of (at most) 50,
`getNotifications` with empty patterns returns exactly the first
`min maxCount totalAvailable` records of the feed — pages concatenated in
retrieval order, internal order preserved, the final page truncated so the
total never exceeds `maxCount` — using `⌈min maxCount totalAvailable / 50⌉`
page requests, possibly plus one extra empty-page probe at the boundary. -/
theorem pagination_exact (N : Int) (feed : List Notification) (hN : 1 ≤ N) :
    ∃ R : Nat,
      getNotifications "" "" N (pagesOf feed) =
        some (feed.take (min N.toNat feed.length), R)
      ∧ (R = (min N.toNat feed.length + 49) / 50
         ∨ R = (min N.toNat feed.length + 49) / 50 + 1) := by
  obtain ⟨R, h, hd⟩ := loop_pagesOf_feed N feed.length feed rfl 0 [] le_rfl (by omega)
  rw [getNotifications]
  have hz : N - 0 = N := by omega
  rw [hz] at h hd
  rw [List.nil_append] at h
  exact ⟨R, h, hd⟩

/-- Witness for C2: requesting 3 records from a 4-record feed returns its
first 3 records with one page request. -/
theorem pagination_exact_witness :
    ∃ R : Nat,
      getNotifications "" "" 3 (pagesOf (List.replicate 4 exampleNotif)) =
        some ((List.replicate 4 exampleNotif).take
          (min (3 : Int).toNat (List.replicate 4 exampleNotif).length), R)
      ∧ (R = (min (3 : Int).toNat (List.replicate 4 exampleNotif).length + 49) / 50
         ∨ R = (min (3 : Int).toNat (List.replicate 4 exampleNotif).length + 49) / 50 + 1) :=
  pagination_exact 3 (List.replicate 4 exampleNotif) (by decide)

/-- Invariant of the fetch loop for C10: while `fetchedCount ≤ maxCount`,
the computed `pageSize` is never negative, so the slice (and the whole
loop) never panics, whatever pages the remote source returns. -/
theorem loop_no_panic (exclusion filter : String) (N : Int) :
    ∀ (pages : List (List Notification)) (fetched : Int)
      (acc : List Notification), fetched ≤ N →
      ∃ r, getNotificationsLoop exclusion filter N fetched acc pages = some r := by
  intro pages
  induction pages with
  | nil => exact fun fetched acc _ => ⟨(acc, 1), rfl⟩
  | cons page rest ih =>
    intro fetched acc hle
    rw [getNotificationsLoop]
    split_ifs with hp
    · exact ⟨(acc, 1), rfl⟩
    · dsimp only
      rw [ghNotifyPerPageLimit]
      have hps : 0 ≤ (N - fetched) ⊓ (50 : Int) := by omega
      have hslice :
          (if (N - fetched) ⊓ (50 : Int) < (page.length : Int) then
             (if (N - fetched) ⊓ (50 : Int) < 0 then none
              else some (page.take ((N - fetched) ⊓ (50 : Int)).toNat))
           else some page) =
          some (if (N - fetched) ⊓ (50 : Int) < (page.length : Int) then
                  page.take ((N - fetched) ⊓ (50 : Int)).toNat
                else page) := by
        split_ifs with h1 h2
        · omega
        · rfl
        · rfl
      rw [hslice]
      dsimp only
      set notifs := (if (N - fetched) ⊓ (50 : Int) < (page.length : Int) then
                  page.take ((N - fetched) ⊓ (50 : Int)).toNat
                else page) with hnotifs
      have hlen : (notifs.length : Int) ≤ (N - fetched) ⊓ (50 : Int)
          ∨ ¬((N - fetched) ⊓ (50 : Int) < (page.length : Int)) ∧ notifs = page := by
        rw [hnotifs]
        split_ifs with h1
        · left; rw [List.length_take]; omega
        · right; exact ⟨h1, rfl⟩
      split_ifs with hstop
      · exact ⟨_, rfl⟩
      · have h2 : fetched + (notifs.length : Int) ≤ N := by
          rcases hlen with hl | ⟨hl, he⟩
          · omega
          · rw [he]; omega
        obtain ⟨⟨r1, c1⟩, hr⟩ := ih (fetched + (notifs.length : Int))
          (acc ++ notifs.filter (keepNotif exclusion filter)) h2
        rw [hr]
        exact ⟨(r1, c1 + 1), rfl⟩

/-- C10: under the precondition `maxCount ≥ 0`, `fetchedCount ≤ maxCount`
is a loop invariant of `getNotifications`, the truncation index is never
negative, and the loop completes without a slice panic for every sequence
of pages the remote source returns; the precondition is necessary — with
`maxCount = -1` and a non-empty first page the slice index is negative and
the Go code panics. -/
theorem fetch_truncation_safe (exclusion filter : String) (N : Int)
    (pages : List (List Notification)) (hN : 0 ≤ N) :
    (∃ r, getNotifications exclusion filter N pages = some r)
    ∧ getNotifications exclusion filter (-1) [[exampleNotif]] = none := by
  refine ⟨loop_no_panic exclusion filter N pages 0 [] hN, ?_⟩
  rw [getNotifications, getNotificationsLoop]
  rw [show (([exampleNotif] : List Notification)).length = 1 from rfl]
  rw [if_neg (by omega : ¬(1 : Nat) = 0)]
  dsimp only
  rw [ghNotifyPerPageLimit]
  rw [if_pos (by omega : (-1 - 0 : Int) ⊓ 50 < ((1 : Nat) : Int)),
    if_pos (by omega : (-1 - 0 : Int) ⊓ 50 < 0)]

/-- Witness for C10 at a concrete `maxCount` and page list. -/
theorem fetch_truncation_safe_witness :
    (∃ r, getNotifications "" "" 50 [[exampleNotif]] = some r)
    ∧ getNotifications "" "" (-1) [[exampleNotif]] = none :=
  fetch_truncation_safe "" "" 50 [[exampleNotif]] (by decide)

end GhNotify
